import Mathlib

/-! Overview
Verification of the dogs-vs-cats transfer-learning notebook
(`labs/04_conv_nets/Fine_Tuning_Deep_CNNs_with_GPU.ipynb`).

The notebook orchestrates: dataset extraction and folder reorganization,
a validation carve-out, feature extraction through a frozen ResNet50
backbone, training of a one-layer sigmoid head, layer freezing by index
threshold, fine-tuning with SGD, and a batched validation-accuracy loop.

This file gives a shallow embedding of those pieces and proves or refutes
the specification claims about them.  Probabilities and parameters are
modelled as rationals, file paths as lists of characters or strings, and
the filesystem as explicit record states.
-/

namespace DogsVsCats

/-! Section: Evaluator (validation accuracy loop)

Embeds the notebook cell

```
valgen = ImageDataGenerator(preprocessing_function=preprocess_function)
val_flow = valgen.flow_from_directory(validation_folder, batch_size=batch_size,
    target_size=(224, 224), shuffle=False, class_mode="binary")
all_correct = []
for i, (X, y) in zip(range(val_flow.n // batch_size), val_flow):
    predictions = model.predict(X).ravel()
    correct = list((predictions > 0.5) == y)
    all_correct.extend(correct)
print("Validation accuracy: %0.4f" % np.mean(all_correct))
```

A validation example is a pair of the model's predicted probability for it
and its ground-truth binary label.  The non-shuffled flow yields the
examples in directory order, cut into consecutive batches of size
`batch_size` (the final batch being smaller when the batch size does not
divide the number of examples). -/

/-- Predicted probability of one validation example together with its
ground-truth label (`true` = class 1). -/
abbrev ValExample : Type := ℚ × Bool

/-- Thresholding of a predicted probability, `predictions > 0.5` in the
source: strictly greater than one half. -/
def thresholded (p : ℚ) : Bool := decide ((1 : ℚ) / 2 < p)

/-- Per-example correctness indicator, `(predictions > 0.5) == y` in the
source. -/
def exampleCorrect (e : ValExample) : Bool := thresholded e.1 == e.2

/-- Consecutive batches of size `B` of a list, in order, the last batch
possibly smaller: the sequence of `(X, y)` arrays a non-shuffled Keras
`flow_from_directory` iterator yields in one pass. -/
def toBatches {α : Type} : ℕ → List α → List (List α)
  | _, [] => []
  | 0, _ :: _ => []
  | B + 1, x :: xs => ((x :: xs).take (B + 1)) :: toBatches (B + 1) ((x :: xs).drop (B + 1))
termination_by _ l => l.length
decreasing_by simp; omega

/-- The list `all_correct` built by the evaluation loop: the loop runs
`val_flow.n // batch_size` times, computes the per-batch correctness list
and extends the accumulator with it. -/
def runEvaluator (B : ℕ) (ex : List ValExample) : List Bool :=
  (((toBatches B ex).take (ex.length / B)).map (fun batch => batch.map exampleCorrect)).flatten

/-- Arithmetic mean of a list of correctness indicators,
`np.mean(all_correct)` in the source. -/
def meanBool (l : List Bool) : ℚ := (l.count true : ℚ) / l.length

/-- The validation accuracy the notebook prints. -/
def reportedAccuracy (B : ℕ) (ex : List ValExample) : ℚ :=
  meanBool (runEvaluator B ex)

/-- Mean of the per-example correctness indicators over the whole
validation split — the quantity the specification says is reported. -/
def fullSplitAccuracy (ex : List ValExample) : ℚ :=
  meanBool (ex.map exampleCorrect)

/-- Flattening the first `k` batches recovers the first `k * B` examples. -/
theorem flatten_take_toBatches {α : Type} (B : ℕ) (hB : 0 < B) :
    ∀ (k : ℕ) (l : List α), ((toBatches B l).take k).flatten = l.take (k * B) := by
  intro k
  induction k with
  | zero => intro l; simp
  | succ k ih =>
    intro l
    cases l with
    | nil => simp [toBatches]
    | cons x xs =>
      obtain ⟨B', rfl⟩ : ∃ B', B = B' + 1 := ⟨B - 1, by omega⟩
      rw [toBatches]
      rw [List.take_succ_cons, List.flatten_cons, ih, ← List.take_add]
      congr 1
      ring

/-- The correctness list the evaluator builds is exactly the per-example
correctness of the first `(n / B) * B` examples. -/
theorem runEvaluator_eq_take (B : ℕ) (hB : 0 < B) (ex : List ValExample) :
    runEvaluator B ex = (ex.take (ex.length / B * B)).map exampleCorrect := by
  unfold runEvaluator
  rw [← List.map_flatten, flatten_take_toBatches B hB]

/-- Concrete validation set: five examples, four predicted correctly, the
fifth (probability 0 with true label 1) predicted wrongly. -/
def cexValExamples : List ValExample :=
  [(1, true), (1, true), (1, true), (1, true), (0, true)]

/-- C1 counterexample: with batch size 2 and 5 validation examples the
evaluation loop runs `5 // 2 = 2` batches, so it processes only 4 of the
5 examples and reports accuracy 1 instead of the full-split mean 4/5. -/
theorem evaluator_misses_partial_batch :
    ¬ ((runEvaluator 2 cexValExamples).length = cexValExamples.length ∧
       reportedAccuracy 2 cexValExamples = fullSplitAccuracy cexValExamples) := by
  have hrun : runEvaluator 2 cexValExamples = [true, true, true, true] := by
    rw [runEvaluator_eq_take 2 (by norm_num)]
    norm_num [cexValExamples, exampleCorrect, thresholded]
  have hrep : reportedAccuracy 2 cexValExamples = 1 := by
    rw [reportedAccuracy, hrun, meanBool]
    norm_num
  have hfull : fullSplitAccuracy cexValExamples = 4 / 5 := by
    rw [fullSplitAccuracy, cexValExamples]
    norm_num [exampleCorrect, thresholded, meanBool]
  intro h
  rw [hrep, hfull] at h
  norm_num at h

/-- C1 (amended): when the batch size is positive and divides the number
of validation examples, the evaluator's correctness list covers the whole
validation split in order and the reported accuracy equals the number of
correct predictions divided by the total number of validation examples. -/
theorem evaluator_reports_exact_mean (B : ℕ) (ex : List ValExample)
    (hB : 0 < B) (hdvd : B ∣ ex.length) :
    runEvaluator B ex = ex.map exampleCorrect ∧
    (runEvaluator B ex).length = ex.length ∧
    reportedAccuracy B ex =
      ((ex.map exampleCorrect).count true : ℚ) / ex.length := by
  have h1 : runEvaluator B ex = ex.map exampleCorrect := by
    rw [runEvaluator_eq_take B hB, Nat.div_mul_cancel hdvd, List.take_length]
  refine ⟨h1, ?_, ?_⟩
  · rw [h1, List.length_map]
  · rw [reportedAccuracy, h1, meanBool, List.length_map]

/-- Witness for `evaluator_reports_exact_mean` at batch size 1 on a
one-example validation set. -/
theorem evaluator_reports_exact_mean_witness :
    0 < 1 ∧ (1 ∣ ([((1 : ℚ), true)] : List ValExample).length) ∧
    reportedAccuracy 1 [((1 : ℚ), true)] =
      (([((1 : ℚ), true)].map exampleCorrect).count true : ℚ) /
        ([((1 : ℚ), true)] : List ValExample).length :=
  ⟨by decide, by decide,
    (evaluator_reports_exact_mean 1 [((1 : ℚ), true)] (by decide) (by decide)).2.2⟩

/-- C10: the decision threshold is strict — an example with predicted
probability exactly 0.5 is classified as the negative class, so it is
counted correct exactly when its true label is 0 (`false`). -/
theorem half_probability_classified_negative :
    thresholded (1 / 2) = false ∧
    ∀ y : Bool, exampleCorrect (1 / 2, y) = (y == false) := by
  constructor
  · simp [thresholded]
  · intro y
    cases y <;> simp [exampleCorrect, thresholded]

/-! Section: Dataset Organizer: validation carve-out

Embeds the notebook cell

```
n_validation = 500
validation_folder = op.join(data_folder, "validation")
if not op.exists(validation_folder):
    os.mkdir(validation_folder)
    for class_name in ["dog", "cat"]:
        ...
        images_filenames = sorted(os.listdir(train_subfolder))
        for image_filename in images_filenames[-n_validation:]:
            shutil.move(op.join(train_subfolder, image_filename),
                        validation_subfolder)
```

File names are lists of characters, ordered lexicographically by code
point exactly as Python's `sorted` orders strings.  Directory contents
are finite lists of distinct names; a listing order is immaterial, so the
per-class carve is modelled on the sorted listing.  Python's slice
`[-n:]` takes the whole list when it is shorter than `n`, which truncated
subtraction models exactly. -/

/-- A file name, as the list of its characters. -/
abbrev FileName : Type := List Char

/-- The configured size of the validation split, `n_validation` in the
source. -/
def n_validation : ℕ := 500

/-- Effect of the carve-out loop body on one class directory: the sorted
listing's last `n_validation` names move to the validation subfolder, the
rest stay in the train subfolder.  Returns `(train contents, validation
contents)` after the move. -/
def carveClass (files : List FileName) : List FileName × List FileName :=
  let sortedNames := files.insertionSort (· ≤ ·)
  (sortedNames.take (sortedNames.length - n_validation),
   sortedNames.drop (sortedNames.length - n_validation))

/-- C2: if a class has at least 500 (distinct) training images, the
carve-out puts exactly 500 images in the validation split for that class,
these are the lexicographically-last names (strictly above every name
left in train), none of them remains in the train split, and together the
two splits are a permutation of the original contents. -/
theorem validation_split_properties (files : List FileName)
    (hnd : files.Nodup) (hlen : 500 ≤ files.length) :
    (carveClass files).2.length = 500 ∧
    (∀ a ∈ (carveClass files).1, ∀ b ∈ (carveClass files).2, a < b) ∧
    (∀ x ∈ (carveClass files).2, x ∉ (carveClass files).1) ∧
    ((carveClass files).1 ++ (carveClass files).2).Perm files := by
  classical
  have hcarve1 : (carveClass files).1 =
      (files.insertionSort (· ≤ ·)).take ((files.insertionSort (· ≤ ·)).length - n_validation) := by
    simp only [carveClass]
  have hcarve2 : (carveClass files).2 =
      (files.insertionSort (· ≤ ·)).drop ((files.insertionSort (· ≤ ·)).length - n_validation) := by
    simp only [carveClass]
  set s : List FileName := files.insertionSort (· ≤ ·) with hs
  have hperm : s.Perm files := List.perm_insertionSort _ _
  have hsort : s.Sorted (· ≤ ·) := List.sorted_insertionSort _ _
  have hnds : s.Nodup := hperm.nodup_iff.mpr hnd
  have hslen : s.length = files.length := hperm.length_eq
  have hsplit : s.take (s.length - n_validation) ++ s.drop (s.length - n_validation) = s :=
    List.take_append_drop _ _
  have hcross : ∀ a ∈ s.take (s.length - n_validation),
      ∀ b ∈ s.drop (s.length - n_validation), a ≤ b := by
    have := hsort
    rw [List.Sorted, ← hsplit, List.pairwise_append] at this
    exact this.2.2
  have hdisj : ∀ a ∈ s.take (s.length - n_validation),
      a ∉ s.drop (s.length - n_validation) := by
    have := hnds
    rw [← hsplit, List.nodup_append] at this
    exact this.2.2
  refine ⟨?_, ?_, ?_, ?_⟩
  · rw [hcarve2, List.length_drop, n_validation]
    omega
  · intro a ha b hb
    rw [hcarve1] at ha
    rw [hcarve2] at hb
    rcases lt_or_eq_of_le (hcross a ha b hb) with h | h
    · exact h
    · exact absurd (h ▸ hb) (hdisj a ha)
  · intro x hx hx'
    rw [hcarve2] at hx
    rw [hcarve1] at hx'
    exact hdisj x hx' hx
  · rw [hcarve1, hcarve2, hsplit]
    exact hperm

/-- Concrete class directory with 520 distinct file names. -/
def carveWitnessFiles : List FileName :=
  (List.range 520).map (fun i => List.replicate i 'a' ++ ['j'])

/-- Witness for `validation_split_properties` on a 520-file class
directory. -/
theorem validation_split_properties_witness :
    carveWitnessFiles.Nodup ∧ 500 ≤ carveWitnessFiles.length ∧
    (carveClass carveWitnessFiles).2.length = 500 ∧
    (∀ x ∈ (carveClass carveWitnessFiles).2, x ∉ (carveClass carveWitnessFiles).1) := by
  have hinj : Function.Injective (fun i : ℕ => List.replicate i 'a' ++ ['j']) := by
    intro a b h
    have hl := congrArg List.length h
    simp at hl
    exact hl
  have hnd : carveWitnessFiles.Nodup := (List.nodup_range 520).map hinj
  have hlen : 500 ≤ carveWitnessFiles.length := by
    rw [carveWitnessFiles, List.length_map, List.length_range]
    omega
  have h := validation_split_properties carveWitnessFiles hnd hlen
  exact ⟨hnd, hlen, h.1, h.2.2.1⟩

/-! Section: Dataset Organizer: folder rearrangement paths

Embeds the path computation of

```
def rearrange_folders(folder):
    image_filenames = [op.join(folder, fn) for fn in os.listdir(folder)
                       if fn.endswith(".jpg")]
    ...
    for image_filename in image_filenames:
        subfolder, _ = image_filename.split(".", 1)
        subfolder = op.join(folder, subfolder)
        ...
        shutil.move(image_filename, subfolder)
```

Note that `split(".", 1)` is applied to the full joined path
`image_filename`, not to the bare file name, and that `os.path.join`
discards its first argument when the second is absolute. -/

/-- The `os.path.join` of two POSIX paths as the notebook uses it: the
second path wins when absolute, otherwise the two are joined with a
separator (first path assumed non-empty without a trailing slash). -/
def osJoin (a b : List Char) : List Char :=
  if b.head? = some '/' then b else a ++ '/' :: b

/-- Characters of a path before its first dot: the first component of
Python's `split(".", 1)`. -/
def takeUntilDot : List Char → List Char
  | [] => []
  | c :: cs => if c = '.' then [] else c :: takeUntilDot cs

/-- Full path of a flat image file inside `folder`,
`op.join(folder, fn)` in the source. -/
def imagePath (folder fn : List Char) : List Char := osJoin folder fn

/-- The directory `rearrange_folders` moves the image into:
`op.join(folder, image_filename.split(".", 1)[0])`. -/
def destSubfolder (folder fn : List Char) : List Char :=
  osJoin folder (takeUntilDot (imagePath folder fn))

/-- C4 counterexample: for the train folder path `/data.v2` the file
`cat.1.jpg` is moved to `/data` — the split happens at the first dot of
the joined path, so the destination is not a function of the filename
prefix alone. -/
theorem rearrange_dest_depends_on_folder :
    destSubfolder ("/data.v2".toList) ("cat.1.jpg".toList) ≠
      osJoin ("/data.v2".toList) (takeUntilDot ("cat.1.jpg".toList)) := by
  decide

/-- Splitting at the first dot passes over a dot-free prefix. -/
theorem takeUntilDot_append (a b : List Char) (ha : '.' ∉ a) :
    takeUntilDot (a ++ b) = a ++ takeUntilDot b := by
  induction a with
  | nil => rfl
  | cons c cs ih =>
    rw [List.cons_append, takeUntilDot]
    rw [if_neg (by intro h; exact ha (h ▸ List.mem_cons_self c cs))]
    rw [ih (fun h => ha (List.mem_cons_of_mem c h)), List.cons_append]

/-- C4 (amended): when the train folder path is absolute and contains no
dot — as the notebook's `~/data/dogs-vs-cats/train` is intended to be —
the destination of a flat file is the subfolder of the train folder named
by the filename prefix before the first dot, independent of the folder
path. -/
theorem rearrange_dest_of_clean_folder (folder fn : List Char)
    (habs : folder.head? = some '/') (hdot : '.' ∉ folder)
    (hfn : fn.head? ≠ some '/') :
    destSubfolder folder fn = folder ++ '/' :: takeUntilDot fn ∧
    destSubfolder folder fn = osJoin folder (takeUntilDot fn) := by
  have hne : folder ≠ [] := by
    intro h
    rw [h] at habs
    exact Option.noConfusion habs
  have himg : imagePath folder fn = folder ++ '/' :: fn := by
    rw [imagePath, osJoin, if_neg (by simpa using hfn)]
  have hsplit : takeUntilDot (imagePath folder fn) = folder ++ '/' :: takeUntilDot fn := by
    rw [himg, takeUntilDot_append folder ('/' :: fn) hdot, takeUntilDot]
    rw [if_neg (by decide)]
  have hheadsplit : (takeUntilDot (imagePath folder fn)).head? = some '/' := by
    rw [hsplit]
    cases folder with
    | nil => exact absurd rfl hne
    | cons c cs =>
      simp only [List.head?_cons] at habs ⊢
      simpa using habs
  constructor
  · rw [destSubfolder, osJoin, if_pos hheadsplit, hsplit]
  · have hfnhead : (takeUntilDot fn).head? ≠ some '/' := by
      cases fn with
      | nil => intro h; exact Option.noConfusion h
      | cons c cs =>
        rw [takeUntilDot]
        by_cases hc : c = '.'
        · rw [if_pos hc]; intro h; exact Option.noConfusion h
        · rw [if_neg hc]
          simp only [List.head?_cons]
          intro h
          exact hfn (by simpa using h)
    rw [destSubfolder, osJoin, if_pos hheadsplit, hsplit, osJoin, if_neg hfnhead]

/-- Witness for `rearrange_dest_of_clean_folder` at the notebook's
intended dataset layout. -/
theorem rearrange_dest_of_clean_folder_witness :
    ("/home/user/data/dogs-vs-cats/train".toList).head? = some '/' ∧
    '.' ∉ "/home/user/data/dogs-vs-cats/train".toList ∧
    ("cat.249.jpg".toList).head? ≠ some '/' ∧
    destSubfolder ("/home/user/data/dogs-vs-cats/train".toList) ("cat.249.jpg".toList) =
      "/home/user/data/dogs-vs-cats/train".toList ++ '/' :: takeUntilDot ("cat.249.jpg".toList) :=
  ⟨by decide, by decide, by decide,
    (rearrange_dest_of_clean_folder _ _ (by decide) (by decide) (by decide)).1⟩

/-! Section: Dataset Organizer: end-to-end state and idempotence

The organizer is the sequence of the three cells: archive extraction
(guarded by the existence of the train folder), `rearrange_folders` on
the train folder (an early return when no flat `.jpg` file is present),
and the validation carve-out (guarded by the existence of the validation
folder).  The relevant filesystem state is: whether `train.zip` is
present and what it contains, whether the train directory exists, the
flat files directly inside it, the subdirectories (keyed by their full
path) with their contents, and the same for the validation directory. -/

/-- Filesystem state of the data directory, as the organizer observes and
mutates it. -/
structure DataState where
  archivePresent : Bool
  archiveFiles : List FileName
  trainExists : Bool
  trainFlat : List FileName
  trainDirs : List (List Char × List FileName)
  validationExists : Bool
  valDirs : List (List Char × List FileName)

/-- Test for the `.jpg` extension, `fn.endswith(".jpg")` in the source. -/
def isJpg (fn : FileName) : Bool := (".jpg".toList).isSuffixOf fn

/-- Move a file into a directory of the association table, creating the
directory when absent (`os.mkdir` + `shutil.move`). -/
def dirInsert : List (List Char × List FileName) → List Char → FileName →
    List (List Char × List FileName)
  | [], path, fn => [(path, [fn])]
  | (p, fs) :: rest, path, fn =>
    if p = path then (p, fs ++ [fn]) :: rest else (p, fs) :: dirInsert rest path fn

/-- Replace (or create) a directory's contents in the association table. -/
def dirSet : List (List Char × List FileName) → List Char → List FileName →
    List (List Char × List FileName)
  | [], path, fs => [(path, fs)]
  | (p, g) :: rest, path, fs =>
    if p = path then (p, fs) :: rest else (p, g) :: dirSet rest path fs

/-- Contents of a directory in the association table (empty when the
directory is absent). -/
def dirGet (dirs : List (List Char × List FileName)) (path : List Char) : List FileName :=
  (dirs.lookup path).getD []

/-- Archive extraction step: skipped when the train folder exists, fatal
when both the train folder and `train.zip` are missing. -/
def extractArchive (st : DataState) : Option DataState :=
  if st.trainExists then some st
  else if st.archivePresent then
    some { st with trainExists := true, trainFlat := st.archiveFiles }
  else none

/-- Effect of `rearrange_folders(train_folder)` on the state: an early
return when the folder holds no flat `.jpg` file, otherwise every flat
`.jpg` file moves into the subfolder `destSubfolder` computes for it. -/
def rearrangeFolders (folder : List Char) (st : DataState) : DataState :=
  if (st.trainFlat.filter isJpg).length = 0 then st
  else
    { st with
      trainFlat := st.trainFlat.filter (fun fn => !(isJpg fn)),
      trainDirs := (st.trainFlat.filter isJpg).foldl
        (fun dirs fn => dirInsert dirs (destSubfolder folder fn) fn) st.trainDirs }

/-- Carve-out loop body for one class: the sorted last `n_validation`
files of the class's train subfolder move to the class's validation
subfolder. -/
def carveClassMove (trainFolder valFolder className : List Char) (st : DataState) :
    DataState :=
  { st with
    trainDirs := dirSet st.trainDirs (osJoin trainFolder className)
      (carveClass (dirGet st.trainDirs (osJoin trainFolder className))).1,
    valDirs := dirSet st.valDirs (osJoin valFolder className)
      (carveClass (dirGet st.trainDirs (osJoin trainFolder className))).2 }

/-- The validation carve-out cell: skipped entirely when the validation
folder already exists, otherwise it is created and the two classes are
processed in order. -/
def carveValidation (dataFolder trainFolder : List Char) (st : DataState) : DataState :=
  if st.validationExists then st
  else
    (["dog".toList, "cat".toList]).foldl
      (fun s c => carveClassMove trainFolder (osJoin dataFolder ("validation".toList)) c s)
      { st with validationExists := true }

/-- The Dataset Organizer: extraction, rearrangement, carve-out, in the
order the notebook cells run; `none` models the fatal missing-archive
error. -/
def organize (dataFolder : List Char) (st : DataState) : Option DataState :=
  match extractArchive st with
  | none => none
  | some st1 =>
      some (carveValidation dataFolder (osJoin dataFolder ("train".toList))
        (rearrangeFolders (osJoin dataFolder ("train".toList)) st1))

theorem extractArchive_trainExists {st st' : DataState}
    (h : extractArchive st = some st') : st'.trainExists = true := by
  unfold extractArchive at h
  split at h
  · cases h
    assumption
  · split at h
    · cases h
      rfl
    · exact Option.noConfusion h

theorem rearrangeFolders_trainExists (f : List Char) (st : DataState) :
    (rearrangeFolders f st).trainExists = st.trainExists := by
  unfold rearrangeFolders
  split <;> rfl

theorem rearrangeFolders_validationExists (f : List Char) (st : DataState) :
    (rearrangeFolders f st).validationExists = st.validationExists := by
  unfold rearrangeFolders
  split <;> rfl

theorem rearrangeFolders_noJpgLeft (f : List Char) (st : DataState) :
    (rearrangeFolders f st).trainFlat.filter isJpg = [] := by
  unfold rearrangeFolders
  split
  · exact List.length_eq_zero.mp (by assumption)
  · show (st.trainFlat.filter (fun fn => !(isJpg fn))).filter isJpg = []
    rw [List.filter_filter]
    exact List.filter_eq_nil_iff.mpr (fun a _ => by cases isJpg a <;> simp)

theorem carveClassMove_trainExists (tf vf c : List Char) (st : DataState) :
    (carveClassMove tf vf c st).trainExists = st.trainExists := rfl

theorem carveClassMove_trainFlat (tf vf c : List Char) (st : DataState) :
    (carveClassMove tf vf c st).trainFlat = st.trainFlat := rfl

theorem carveClassMove_validationExists (tf vf c : List Char) (st : DataState) :
    (carveClassMove tf vf c st).validationExists = st.validationExists := rfl

theorem carveValidation_trainExists (d tf : List Char) (st : DataState) :
    (carveValidation d tf st).trainExists = st.trainExists := by
  unfold carveValidation
  split
  · rfl
  · simp only [List.foldl_cons, List.foldl_nil, carveClassMove_trainExists]

theorem carveValidation_trainFlat (d tf : List Char) (st : DataState) :
    (carveValidation d tf st).trainFlat = st.trainFlat := by
  unfold carveValidation
  split
  · rfl
  · simp only [List.foldl_cons, List.foldl_nil, carveClassMove_trainFlat]

theorem carveValidation_validationExists (d tf : List Char) (st : DataState) :
    (carveValidation d tf st).validationExists = true := by
  unfold carveValidation
  split
  · assumption
  · simp only [List.foldl_cons, List.foldl_nil, carveClassMove_validationExists]

/-- C3: re-running the Dataset Organizer on the state a successful run
produced is an error-free no-op — the extraction is skipped because the
train folder exists, the rearrangement moves nothing because no flat
`.jpg` file is left, and the carve-out is skipped because the validation
folder exists. -/
theorem organize_idempotent (d : List Char) (st st' : DataState)
    (h : organize d st = some st') : organize d st' = some st' := by
  unfold organize at h ⊢
  cases hex : extractArchive st with
  | none => rw [hex] at h; exact Option.noConfusion h
  | some st1 =>
    rw [hex] at h
    injection h with h
    have h1 : st'.trainExists = true := by
      rw [← h, carveValidation_trainExists, rearrangeFolders_trainExists]
      exact extractArchive_trainExists hex
    have h2 : st'.trainFlat.filter isJpg = [] := by
      rw [← h, carveValidation_trainFlat]
      exact rearrangeFolders_noJpgLeft _ _
    have h3 : st'.validationExists = true := by
      rw [← h]
      exact carveValidation_validationExists _ _ _
    have hex' : extractArchive st' = some st' := by
      unfold extractArchive
      rw [if_pos h1]
    rw [hex']
    have hre : rearrangeFolders (osJoin d ("train".toList)) st' = st' := by
      unfold rearrangeFolders
      rw [h2]
      simp
    have hca : carveValidation d (osJoin d ("train".toList)) st' = st' := by
      unfold carveValidation
      rw [if_pos h3]
    show some (carveValidation d (osJoin d ("train".toList))
      (rearrangeFolders (osJoin d ("train".toList)) st')) = some st'
    rw [hre, hca]

/-- Concrete unorganized data directory: the archive is present with two
images and a stray text file, nothing is extracted yet. -/
def organizeWitnessState : DataState :=
  { archivePresent := true,
    archiveFiles := ["cat.1.jpg".toList, "dog.1.jpg".toList, "notes.txt".toList],
    trainExists := false,
    trainFlat := [],
    trainDirs := [],
    validationExists := false,
    valDirs := [] }

/-- Witness for `organize_idempotent`: organizing the concrete directory
succeeds, and organizing its result again returns it unchanged. -/
theorem organize_idempotent_witness :
    (organize ("/data".toList) organizeWitnessState).isSome = true ∧
    (organize ("/data".toList) organizeWitnessState).bind (organize ("/data".toList)) =
      organize ("/data".toList) organizeWitnessState := by
  have hs : (organize ("/data".toList) organizeWitnessState).isSome = true := by decide
  obtain ⟨st', hst⟩ := Option.isSome_iff_exists.mp hs
  refine ⟨hs, ?_⟩
  rw [hst]
  show organize ("/data".toList) st' = some st'
  exact organize_idempotent _ _ _ hst

/-! Section: Composed Model and Fine-Tuner: layer freezing by index

Embeds the cell

```
for i, layer in enumerate(model.layers):
    layer.trainable = i >= 151
```

A layer is its parameter vector, its trainability flag, and whether it is
a residual `Add` merge (the notebook lists the `Add` layers in the
preceding cell to locate the residual stages). -/

/-- One layer of the composed model. -/
structure Layer where
  params : List ℚ
  trainable : Bool
  isAdd : Bool
deriving DecidableEq

/-- The hardcoded positional freeze threshold of the fine-tuning cell. -/
def fineTuneBoundary : ℕ := 151

/-- Effect of the freezing loop: layer `i` becomes trainable iff
`i >= 151`. -/
def markTrainable (layers : List Layer) : List Layer :=
  (List.range layers.length).zipWith
    (fun i l => { l with trainable := decide (fineTuneBoundary ≤ i) }) layers

/-- Modelled from the spec: the gradient-based training step of the
external ML framework (not part of this repository's code) "mutates
backbone weights in the unfrozen suffix" — each trainable layer's
parameters receive a gradient-descent update with step size `lr` and
per-layer gradients, non-trainable layers are untouched. -/
def gradStep (lr : ℚ) (grads : ℕ → List ℚ) (layers : List Layer) : List Layer :=
  (List.range layers.length).zipWith
    (fun i l =>
      if l.trainable then
        { l with params := l.params.zipWith (fun p g => p - lr * g) (grads i) }
      else l) layers

/-- Backbone with three layers whose only residual merge is at index 1,
so its last residual stage ends well before index 151. -/
def tinyBackbone : List Layer :=
  [⟨[1], false, false⟩, ⟨[1], false, true⟩, ⟨[1], false, false⟩]

/-- C5 counterexample: the threshold is the hardcoded 151, not computed
from the backbone's architecture — on a backbone whose residual merge
sits at index 1, the marking leaves every layer frozen and a training
step with nonzero learning rate and gradients changes no parameter, so
no layer at or after the (supposedly architecture-derived) threshold is
trainable. -/
theorem fine_tune_threshold_hardcoded :
    tinyBackbone.map Layer.isAdd = [false, true, false] ∧
    (markTrainable tinyBackbone).map Layer.trainable = [false, false, false] ∧
    gradStep 1 (fun _ => [1]) (markTrainable tinyBackbone) = markTrainable tinyBackbone := by
  decide

theorem markTrainable_getElem (layers : List Layer) (i : ℕ) :
    (markTrainable layers)[i]? =
      (layers[i]?).map (fun l => { l with trainable := decide (fineTuneBoundary ≤ i) }) := by
  rw [markTrainable, List.getElem?_zipWith]
  cases h : layers[i]? with
  | none => simp
  | some l =>
    have hi : i < layers.length := by
      rcases List.getElem?_eq_some.mp h with ⟨hlt, _⟩
      exact hlt
    rw [List.getElem?_range hi]
    rfl

theorem gradStep_getElem (lr : ℚ) (grads : ℕ → List ℚ) (layers : List Layer) (i : ℕ) :
    (gradStep lr grads layers)[i]? =
      (layers[i]?).map (fun l =>
        if l.trainable then
          { l with params := l.params.zipWith (fun p g => p - lr * g) (grads i) }
        else l) := by
  rw [gradStep, List.getElem?_zipWith]
  cases h : layers[i]? with
  | none => simp
  | some l =>
    have hi : i < layers.length := by
      rcases List.getElem?_eq_some.mp h with ⟨hlt, _⟩
      exact hlt
    rw [List.getElem?_range hi]
    rfl

/-- C5 (amended): with the hardcoded threshold 151, every layer with
index below 151 is frozen and every layer at or above 151 is trainable;
a gradient step then leaves the parameters of all layers below 151
unchanged, and changes the parameters of any layer at or above 151 that
has a parameter with a nonzero learning-rate-times-gradient update. -/
theorem fine_tune_marking (layers : List Layer) (lr : ℚ) (grads : ℕ → List ℚ) :
    (∀ i l, (markTrainable layers)[i]? = some l → i < fineTuneBoundary →
      l.trainable = false) ∧
    (∀ i l, (markTrainable layers)[i]? = some l → fineTuneBoundary ≤ i →
      l.trainable = true) ∧
    (∀ i, i < fineTuneBoundary →
      ((gradStep lr grads (markTrainable layers))[i]?).map Layer.params =
        (layers[i]?).map Layer.params) ∧
    (∀ (i : ℕ) (l : Layer) (j : ℕ) (p g : ℚ), fineTuneBoundary ≤ i → layers[i]? = some l →
      l.params[j]? = some p → (grads i)[j]? = some g → lr * g ≠ 0 →
      ((gradStep lr grads (markTrainable layers))[i]?).map Layer.params ≠
        (layers[i]?).map Layer.params) := by
  refine ⟨?_, ?_, ?_, ?_⟩
  · intro i l hl hi
    rw [markTrainable_getElem] at hl
    cases h : layers[i]? with
    | none => rw [h] at hl; exact Option.noConfusion hl
    | some l0 =>
      rw [h] at hl
      injection hl with hl
      rw [← hl]
      simp [decide_eq_false_iff_not]
      omega
  · intro i l hl hi
    rw [markTrainable_getElem] at hl
    cases h : layers[i]? with
    | none => rw [h] at hl; exact Option.noConfusion hl
    | some l0 =>
      rw [h] at hl
      injection hl with hl
      rw [← hl]
      simp [decide_eq_true_eq]
      omega
  · intro i hi
    rw [gradStep_getElem, markTrainable_getElem]
    cases h : layers[i]? with
    | none => rfl
    | some l0 =>
      have hfalse : decide (fineTuneBoundary ≤ i) = false := by
        simp [decide_eq_false_iff_not]
        omega
      simp only [Option.map_some, hfalse]
      rfl
  · intro i l j p g hi hl hp hg hne heq
    have hmark : (markTrainable layers)[i]? = some { l with trainable := true } := by
      rw [markTrainable_getElem, hl]
      simp [decide_eq_true hi]
    have hgrad : ((gradStep lr grads (markTrainable layers))[i]?).map Layer.params =
        some (l.params.zipWith (fun p g => p - lr * g) (grads i)) := by
      rw [gradStep_getElem, hmark]
      rfl
    rw [hgrad, hl] at heq
    have hzip : (l.params.zipWith (fun p g => p - lr * g) (grads i))[j]? = l.params[j]? := by
      have hinj : l.params.zipWith (fun p g => p - lr * g) (grads i) = l.params := by
        injection heq
      exact congrArg (fun xs : List ℚ => xs[j]?) hinj
    rw [List.getElem?_zipWith, hp, hg] at hzip
    injection hzip with hzip
    exact hne (sub_eq_self.mp hzip)

/-- Composed model with 152 layers: 151 parameterless frozen layers and
one layer at index 151 holding a single parameter. -/
def fineTuneWitnessLayers : List Layer :=
  List.replicate 151 ⟨[], false, false⟩ ++ [⟨[2], false, false⟩]

/-- Witness for `fine_tune_marking`: in the 152-layer model, a gradient
step with learning rate 1 and gradient 1 changes the parameter of the
layer at index 151. -/
theorem fine_tune_marking_witness :
    fineTuneBoundary ≤ 151 ∧
    fineTuneWitnessLayers[151]? = some ⟨[2], false, false⟩ ∧
    (⟨[2], false, false⟩ : Layer).params[0]? = some 2 ∧
    (1 : ℚ) * 1 ≠ 0 ∧
    ((gradStep 1 (fun _ => [1]) (markTrainable fineTuneWitnessLayers))[151]?).map Layer.params ≠
      (fineTuneWitnessLayers[151]?).map Layer.params := by
  have h151 : fineTuneWitnessLayers[151]? = some ⟨[2], false, false⟩ := by
    rw [fineTuneWitnessLayers, List.getElem?_append_right (by simp), List.length_replicate]
    rfl
  refine ⟨le_rfl, h151, rfl, by norm_num, ?_⟩
  exact (fine_tune_marking fineTuneWitnessLayers 1 (fun _ => [1])).2.2.2
    151 ⟨[2], false, false⟩ 0 2 1 le_rfl h151 rfl rfl (by norm_num)

/-! Section: Training configurations (head training and fine-tuning)

Embeds the configuration of

```
top_model = Sequential()
top_model.add(Dense(1, input_dim=n_features, activation="sigmoid"))
top_model.compile(optimizer=Adam(lr=1e-4),
                  loss="binary_crossentropy", metrics=["accuracy"])
top_model.fit(features_train, labels_train,
              validation_split=0.1, verbose=2, epochs=15)
```

and of the fine-tuning cell

```
opt = optimizers.SGD(lr=1e-4, momentum=0.9)
model.compile(optimizer=opt, loss="binary_crossentropy", metrics=["accuracy"])
history = model.fit_generator(train_flow, 5000, epochs=30,
                              validation_data=val_flow,
                              validation_steps=val_flow.n)
``` -/

/-- Layer activation functions used by the notebook's models. -/
inductive Activation where
  | sigmoid
  | relu
  | softmax
deriving DecidableEq

/-- Training losses used by the notebook's models. -/
inductive LossKind where
  | binaryCrossentropy
  | categoricalCrossentropy
deriving DecidableEq

/-- The two optimizers the notebook instantiates: `Adam(lr)` and
`SGD(lr, momentum)`. -/
inductive Optimizer where
  | adam (lr : ℚ)
  | sgd (lr momentum : ℚ)
deriving DecidableEq

/-- Adam is the adaptive-gradient method of the two; plain SGD with
momentum is not adaptive. -/
def Optimizer.isAdaptive : Optimizer → Bool
  | .adam _ => true
  | .sgd _ _ => false

/-- Learning rate of an optimizer. -/
def Optimizer.lr : Optimizer → ℚ
  | .adam lr => lr
  | .sgd lr _ => lr

/-- Specification of one dense layer: output width, input width,
activation, trainability (Keras layers default to trainable). -/
structure DenseLayer where
  units : ℕ
  inputDim : ℕ
  activation : Activation
  trainable : Bool
deriving DecidableEq

/-- Layers of `top_model`: a single `Dense(1, input_dim=n_features,
activation="sigmoid")`. -/
def topModelLayers (nFeatures : ℕ) : List DenseLayer :=
  [⟨1, nFeatures, Activation.sigmoid, true⟩]

/-- Optimizer of `top_model.compile`: `Adam(lr=1e-4)`. -/
def topModelOptimizer : Optimizer := .adam (1 / 10000)

/-- Loss of `top_model.compile`. -/
def topModelLoss : LossKind := .binaryCrossentropy

/-- The `validation_split=0.1` argument of `top_model.fit`. -/
def topModelValidationSplit : ℚ := 1 / 10

/-- The `epochs=15` argument of `top_model.fit`. -/
def topModelEpochs : ℕ := 15

/-- Modelled from the spec: the external framework's `fit` with
`validation_split=v` holds out the trailing fraction `v` of the supplied
arrays for internal validation and trains on the leading `⌊(1 - v)·N⌋`
samples. -/
def heldOutSplit {α : Type} (v : ℚ) (pairs : List α) : List α × List α :=
  (pairs.take (((1 - v) * pairs.length : ℚ)).floor.toNat,
   pairs.drop (((1 - v) * pairs.length : ℚ)).floor.toNat)

/-- C6: the head trainer trains exactly one layer — a trainable dense
layer of width 1 with sigmoid activation over the cached feature width —
under binary cross-entropy with the adaptive-gradient optimizer Adam,
holds out the fixed fraction 1/10 of the cached set for internal
validation (a partition of the cached pairs), and runs a fixed 15
epochs. -/
theorem head_trainer_configuration (nFeatures : ℕ) :
    topModelLayers nFeatures = [⟨1, nFeatures, Activation.sigmoid, true⟩] ∧
    (topModelLayers nFeatures).length = 1 ∧
    topModelLoss = LossKind.binaryCrossentropy ∧
    topModelOptimizer.isAdaptive = true ∧
    topModelValidationSplit = 1 / 10 ∧
    topModelEpochs = 15 ∧
    (∀ (pairs : List (List ℚ × ℚ)),
      (heldOutSplit topModelValidationSplit pairs).1 ++
        (heldOutSplit topModelValidationSplit pairs).2 = pairs) := by
  refine ⟨rfl, rfl, rfl, rfl, rfl, rfl, ?_⟩
  intro pairs
  exact List.take_append_drop _ _

/-- Augmentation settings of the fine-tuning `ImageDataGenerator`. -/
structure GeneratorConfig where
  rotationRange : ℕ
  widthShiftRange : ℚ
  heightShiftRange : ℚ
  shearRange : ℚ
  zoomRange : ℚ
  horizontalFlip : Bool
  usesPreprocess : Bool
deriving DecidableEq

/-- The fine-tuning stage's augmenting generator configuration. -/
def fineTuneDatagen : GeneratorConfig :=
  { rotationRange := 20,
    widthShiftRange := 1 / 5,
    heightShiftRange := 1 / 5,
    shearRange := 1 / 5,
    zoomRange := 1 / 5,
    horizontalFlip := true,
    usesPreprocess := true }

/-- Optimizer the composed model is recompiled with for fine-tuning:
`SGD(lr=1e-4, momentum=0.9)`. -/
def fineTuneOptimizer : Optimizer := .sgd (1 / 10000) (9 / 10)

/-- Loss the composed model is recompiled with. -/
def fineTuneLoss : LossKind := .binaryCrossentropy

/-- The `epochs=30` argument of `fit_generator`. -/
def fineTuneEpochs : ℕ := 30

/-- Whether `fit_generator` is given `validation_data` (it is, so the
framework evaluates the validation set between epochs). -/
def fineTuneHasValidationData : Bool := true

/-- C7: fine-tuning recompiles the composed model with plain gradient
descent with momentum 0.9 at the low learning rate 1e-4 — not the
adaptive optimizer used for the head — and retrains for a bounded 30
epochs streaming from the augmenting pipeline (randomized transforms
enabled, injected preprocessing), with validation-set evaluation
interleaved between epochs. -/
theorem fine_tuning_configuration :
    fineTuneOptimizer = Optimizer.sgd (1 / 10000) (9 / 10) ∧
    fineTuneOptimizer.isAdaptive = false ∧
    topModelOptimizer.isAdaptive = true ∧
    (fineTuneOptimizer == topModelOptimizer) = false ∧
    fineTuneOptimizer.lr = 1 / 10000 ∧
    fineTuneLoss = LossKind.binaryCrossentropy ∧
    fineTuneEpochs = 30 ∧
    (fineTuneDatagen.rotationRange = 20 ∧ fineTuneDatagen.horizontalFlip = true ∧
      fineTuneDatagen.usesPreprocess = true) ∧
    fineTuneHasValidationData = true := by
  exact ⟨rfl, rfl, rfl, rfl, rfl, rfl, rfl, ⟨rfl, rfl, rfl⟩, rfl⟩

/-! Section: Feature Extractor cache

The loading cell of the notebook is

```
labels_train = np.load("labels_train.npy")
features_train = np.load("features_train.npy")
```

The extraction itself is an exercise whose solution file
(`solutions/dogs_vs_cats_extract_features.py`) is referenced by a
`%load` magic but is not part of the sources, so it is modelled from the
specification. -/

/-- Cache file name the features are loaded from (and, per the spec,
saved to). -/
def featuresTrainFile : String := "features_train.npy"

/-- Cache file name the labels are loaded from (and, per the spec, saved
to). -/
def labelsTrainFile : String := "labels_train.npy"

/-- Number of training images the extraction pass processes. -/
def nExtracted : ℕ := 5000

/-- The backbone's declared embedding width: the penultimate (flattened)
layer of ResNet50 has 2048 activations. -/
def featureDim : ℕ := 2048

/-- Modelled from the spec: the feature-extraction exercise (its solution
file is missing from the sources) iterates batch after batch over 5000
training images of the non-augmenting stream, runs the frozen backbone
`embed` on each image, and accumulates embeddings and labels into two
aligned arrays. -/
def extractFeatures {α : Type} (embed : α → List ℚ) (stream : List (α × ℚ)) :
    List (List ℚ) × List ℚ :=
  ((stream.take nExtracted).map (fun e => embed e.1),
   (stream.take nExtracted).map (fun e => e.2))

/-- C8: the cache files are named `features_train.<ext>` and
`labels_train.<ext>`, and extraction over a stream of at least 5000
labelled images with a 2048-wide backbone yields aligned arrays of
shapes (5000, 2048) and (5000,). -/
theorem feature_cache_shapes {α : Type} (embed : α → List ℚ) (stream : List (α × ℚ))
    (hN : nExtracted ≤ stream.length) (hD : ∀ x, (embed x).length = featureDim) :
    featuresTrainFile = "features_train." ++ "npy" ∧
    labelsTrainFile = "labels_train." ++ "npy" ∧
    (extractFeatures embed stream).1.length = 5000 ∧
    (∀ row ∈ (extractFeatures embed stream).1, row.length = 2048) ∧
    (extractFeatures embed stream).2.length = 5000 ∧
    (extractFeatures embed stream).1.length = (extractFeatures embed stream).2.length := by
  have hlen : (stream.take nExtracted).length = 5000 := by
    rw [List.length_take]
    have : nExtracted = 5000 := rfl
    omega
  refine ⟨rfl, rfl, ?_, ?_, ?_, ?_⟩
  · rw [extractFeatures]
    rw [List.length_map, hlen]
  · intro row hrow
    rw [extractFeatures] at hrow
    rcases List.mem_map.mp hrow with ⟨e, _, he⟩
    rw [← he, hD e.1]
    rfl
  · rw [extractFeatures]
    rw [List.length_map, hlen]
  · rw [extractFeatures]
    rw [List.length_map, List.length_map]

/-- Concrete stream of 5000 labelled images for the cache witness. -/
def cacheWitnessStream : List (Unit × ℚ) := List.replicate 5000 ((), 0)

/-- Witness for `feature_cache_shapes` on a constant backbone and a
5000-image stream. -/
theorem feature_cache_shapes_witness :
    nExtracted ≤ cacheWitnessStream.length ∧
    (∀ x : Unit, ((fun _ : Unit => List.replicate 2048 (0 : ℚ)) x).length = featureDim) ∧
    (extractFeatures (fun _ : Unit => List.replicate 2048 (0 : ℚ)) cacheWitnessStream).1.length
      = 5000 := by
  have hN : nExtracted ≤ cacheWitnessStream.length := by
    rw [cacheWitnessStream, List.length_replicate]
    norm_num [nExtracted]
  have hD : ∀ x : Unit, ((fun _ : Unit => List.replicate 2048 (0 : ℚ)) x).length = featureDim := by
    intro x
    rw [List.length_replicate]
    rfl
  exact ⟨hN, hD,
    (feature_cache_shapes (fun _ : Unit => List.replicate 2048 (0 : ℚ))
      cacheWitnessStream hN hD).2.2.1⟩

/-! Section: Injectable preprocessing function

Embeds

```
def preprocess_function(x):
    if x.ndim == 3:
        x = x[np.newaxis, :, :, :]
    return preprocess_input(x)
``` -/

/-- A dense numeric array: its shape and its flattened entries. -/
structure NDArr where
  shape : List ℕ
  data : List ℚ
deriving DecidableEq

/-- Number of axes of an array, `x.ndim` in the source. -/
def ndim (x : NDArr) : ℕ := x.shape.length

/-- Prepending a batch axis, `x[np.newaxis, :, :, :]` in the source. -/
def addAxis (x : NDArr) : NDArr := ⟨1 :: x.shape, x.data⟩

/-- ImageNet channel means used by the backbone's preprocessing. -/
def imagenetMeans : List ℚ := [103939 / 1000, 116779 / 1000, 12368 / 100]

/-- Modelled from the spec: the backbone's `preprocess_input` — the
channel-mean normalization matching the pretrained network's training
distribution, subtracting the per-channel mean from every entry
(channels-last). -/
def preprocess_input (x : NDArr) : NDArr :=
  ⟨x.shape, (List.range x.data.length).zipWith
    (fun i v => v - imagenetMeans.getD (i % 3) 0) x.data⟩

/-- The array `preprocess_function` hands to `preprocess_input`: the
input itself, or the input with a prepended batch axis when it is
3-dimensional. -/
def preprocessArg (x : NDArr) : NDArr := if ndim x = 3 then addAxis x else x

/-- The notebook's `preprocess_function`. -/
def preprocess_function (x : NDArr) : NDArr := preprocess_input (preprocessArg x)

/-- C9: a 3-dimensional input is first given a batch axis — so the
function agrees on `x` and on `x[np.newaxis]` — and for both accepted
ranks (3 and 4) the channel-mean normalization is applied to a
4-dimensional array. -/
theorem preprocess_function_rank (x : NDArr) :
    (ndim x = 3 → preprocess_function x = preprocess_function (addAxis x)) ∧
    (ndim x = 3 ∨ ndim x = 4 → ndim (preprocessArg x) = 4) := by
  constructor
  · intro h3
    have harg : preprocessArg x = addAxis x := by
      rw [preprocessArg, if_pos h3]
    have h4 : ndim (addAxis x) = 4 := by
      rw [ndim, addAxis, List.length_cons]
      rw [ndim] at h3
      omega
    have harg' : preprocessArg (addAxis x) = addAxis x := by
      rw [preprocessArg, if_neg (by omega)]
    rw [preprocess_function, preprocess_function, harg, harg']
  · rintro (h3 | h4)
    · rw [preprocessArg, if_pos h3, ndim, addAxis, List.length_cons]
      rw [ndim] at h3
      omega
    · rw [preprocessArg, if_neg (by omega), h4]

/-- Concrete 2×2 RGB image (a 3-dimensional array). -/
def witnessImage : NDArr := ⟨[2, 2, 3], List.replicate 12 0⟩

/-- Witness for `preprocess_function_rank` on a concrete single image. -/
theorem preprocess_function_rank_witness :
    ndim witnessImage = 3 ∧
    preprocess_function witnessImage = preprocess_function (addAxis witnessImage) :=
  ⟨rfl, (preprocess_function_rank witnessImage).1 rfl⟩

end DogsVsCats
